import Mathlib

/-!
Verification of the `check_tv_compat` media-compatibility checker.

The definitions below are a shallow embedding of `src/check_tv_compat.c`:
codec identifiers and media types become inductive types, the FFmpeg
`AVCodecParameters` fields used by the program become a structure, the
pure classification functions are translated one-to-one, and the
stateful parts of `check_file` (the outcome-flag first pass and the
command-string builders) become explicit folds over the stream list.
-/

/-- The FFmpeg media types distinguished by the program; every media type
other than video/audio/subtitle is collapsed into `other`, which the
program skips (`is_media_stream`). -/
inductive AVMediaType where
  | video
  | audio
  | subtitle
  | other
deriving DecidableEq

/-- The FFmpeg codec identifiers the program mentions, plus `dvb_subtitle`
(a real FFmpeg subtitle codec the program does not mention) and a
catch-all `other n` for every remaining codec identifier. -/
inductive AVCodecID where
  | h264
  | hevc
  | mpeg2video
  | vp9
  | av1
  | mjpeg
  | png
  | mpeg4
  | aac
  | ac3
  | eac3
  | mp3
  | pcm_s16le
  | flac
  | vorbis
  | opus
  | wmav2
  | subrip
  | ass
  | ssa
  | webvtt
  | mov_text
  | microdvd
  | text
  | hdmv_pgs_subtitle
  | dvd_subtitle
  | dvb_subtitle
  | other (n : Nat)
deriving DecidableEq

/-- FFmpeg's `MKTAG(a,b,c,d)`: a four-character code packed little-endian
into a 32-bit integer (modelled as `Nat`; all inputs are ASCII). -/
def MKTAG (a b c d : Char) : Nat :=
  a.toNat ||| (b.toNat <<< 8) ||| (c.toNat <<< 16) ||| (d.toNat <<< 24)

/-- `FF_PROFILE_MPEG4_ADVANCED_SIMPLE` from FFmpeg `avcodec.h`. -/
def FF_PROFILE_MPEG4_ADVANCED_SIMPLE : Int := 15

/-- `FF_PROFILE_MPEG4_SIMPLE_STUDIO` from FFmpeg `avcodec.h`. -/
def FF_PROFILE_MPEG4_SIMPLE_STUDIO : Int := 14

/-- The fields of FFmpeg's `AVCodecParameters` read by the program
(`codec_type`, `codec_id`, `codec_tag`, `profile`). One value per stream. -/
structure AVCodecParameters where
  codec_type : AVMediaType
  codec_id : AVCodecID
  codec_tag : Nat
  profile : Int
deriving DecidableEq

/-- `is_video_codec_supported` (src lines 52-75). -/
def is_video_codec_supported (par : AVCodecParameters) : Bool :=
  par.codec_id == .h264 ||
  par.codec_id == .hevc ||
  par.codec_id == .mpeg2video ||
  par.codec_id == .vp9 ||
  par.codec_id == .av1 ||
  par.codec_id == .mjpeg ||
  par.codec_id == .png ||
  (par.codec_id == .mpeg4 &&
   par.codec_tag != MKTAG 'X' 'V' 'I' 'D' &&
   par.codec_tag != MKTAG 'x' 'v' 'i' 'd' &&
   par.codec_tag != MKTAG 'D' 'I' 'V' 'X' &&
   par.codec_tag != MKTAG 'd' 'i' 'v' 'x' &&
   par.codec_tag != MKTAG 'D' 'X' '5' '0' &&
   par.codec_tag != MKTAG 'M' 'P' '4' 'V' &&
   par.codec_tag != MKTAG 'm' 'p' '4' 'v' &&
   par.codec_tag != MKTAG 'F' 'M' 'P' '4' &&
   par.codec_tag != MKTAG 'f' 'm' 'p' '4' &&
   !(par.profile == FF_PROFILE_MPEG4_ADVANCED_SIMPLE ||
     par.profile == FF_PROFILE_MPEG4_SIMPLE_STUDIO))

/-- `is_audio_codec_supported` (src lines 77-87). -/
def is_audio_codec_supported (id : AVCodecID) : Bool :=
  id == .aac ||
  id == .ac3 ||
  id == .eac3 ||
  id == .mp3 ||
  id == .pcm_s16le ||
  id == .flac ||
  id == .vorbis ||
  id == .opus ||
  id == .wmav2

/-- `matchesAt needle hay`: does `needle` occur at the very start of `hay`?
Helper for the C `strstr` model. -/
def matchesAt : List Char → List Char → Bool
  | [], _ => true
  | _ :: _, [] => false
  | p :: ps, h :: hs => p == h && matchesAt ps hs

/-- `containsSub needle hay`: does `needle` occur somewhere in `hay`?
Models the boolean use of C `strstr(hay, needle)`. -/
def containsSub (needle : List Char) : List Char → Bool
  | [] => matchesAt needle []
  | h :: t => matchesAt needle (h :: t) || containsSub needle t

/-- Boolean `strstr(haystack, needle) != NULL`. -/
def strstrB (hay pat : String) : Bool :=
  containsSub pat.data hay.data

/-- `is_container_supported` (src lines 89-103); `none` models a NULL
`format_name` pointer, which short-circuits to false. -/
def is_container_supported : Option String → Bool
  | none => false
  | some s =>
    strstrB s "matroska" ||
    strstrB s "mp4" ||
    strstrB s "mov" ||
    strstrB s "mpegts" ||
    strstrB s "webm" ||
    strstrB s "avi" ||
    strstrB s "asf" ||
    strstrB s "wav" ||
    strstrB s "flac" ||
    strstrB s "mp3" ||
    strstrB s "ogg" ||
    strstrB s "wmv"

/-- `is_subtitle_codec_supported` (src lines 105-113). -/
def is_subtitle_codec_supported (id : AVCodecID) : Bool :=
  id == .subrip ||
  id == .ass ||
  id == .ssa ||
  id == .webvtt ||
  id == .mov_text ||
  id == .microdvd ||
  id == .text

/-- `is_text_subtitle` (src lines 115-123). -/
def is_text_subtitle (id : AVCodecID) : Bool :=
  id == .subrip ||
  id == .ass ||
  id == .ssa ||
  id == .webvtt ||
  id == .mov_text ||
  id == .microdvd ||
  id == .text

/-- `is_bitmap_subtitle` (src lines 125-128). -/
def is_bitmap_subtitle (id : AVCodecID) : Bool :=
  id == .hdmv_pgs_subtitle || id == .dvd_subtitle

/-- `is_media_stream` (src lines 154-158). -/
def is_media_stream (t : AVMediaType) : Bool :=
  t == .video || t == .audio || t == .subtitle

/-- `strrchr(path, '/')` helper: the characters after the last slash, or
`none` when the list has no slash. -/
def afterLastSlash : List Char → Option (List Char)
  | [] => none
  | c :: rest =>
    match afterLastSlash rest with
    | some t => some t
    | none => if c = '/' then some rest else none

/-- `get_basename` (src lines 143-146). -/
def get_basename (path : String) : String :=
  match afterLastSlash path.data with
  | some t => String.mk t
  | none => path

/-- `strrchr(base, '.')` helper: the characters strictly before the last
dot, or `none` when the list has no dot. -/
def beforeLastDot : List Char → Option (List Char)
  | [] => none
  | c :: rest =>
    match beforeLastDot rest with
    | some t => some (c :: t)
    | none => if c = '.' then some [] else none

/-- The `fixed_<stem>.mkv` output basename built at src lines 365-371:
the extension (everything from the last dot of the basename on) is
dropped when present. -/
def fixed_basename (path : String) : String :=
  let base := get_basename path
  match beforeLastDot base.data with
  | some stem => "fixed_" ++ String.mk stem ++ ".mkv"
  | none => "fixed_" ++ base ++ ".mkv"

/-- The body of `shell_escape_single`'s loop (src lines 167-174): every
single quote becomes the four characters of the sequence quote,
backslash, quote, quote; every other character is copied. -/
def escape_body : List Char → List Char
  | [] => []
  | c :: rest =>
    if c = '\'' then '\'' :: '\\' :: '\'' :: '\'' :: escape_body rest
    else c :: escape_body rest

/-- `shell_escape_single` (src lines 161-178): the escaped body wrapped
in single quotes. -/
def shell_escape_single (input : String) : String :=
  String.mk ('\'' :: (escape_body input.data ++ ['\'']))

/-- A minimal POSIX word-expansion interpreter covering the constructs a
single-quoted token can contain: outside single quotes a backslash
escapes the next character and a single quote opens a quoted section;
inside single quotes every character up to the closing quote is literal.
The boolean argument records whether we are inside single quotes;
`none` signals an unterminated construct. -/
def shInterp : List Char → Bool → Option (List Char)
  | [], q => if q then none else some []
  | c :: rest, q =>
    if c = '\'' then shInterp rest (!q)
    else if q = false ∧ c = '\\' then
      match rest with
      | [] => none
      | d :: rest2 => Option.map (fun l => d :: l) (shInterp rest2 q)
    else Option.map (fun l => c :: l) (shInterp rest q)

/-- Interpret a whole token under the POSIX single-quoting rules,
starting outside quotes. -/
def shUnquote (s : String) : Option String :=
  Option.map String.mk (shInterp s.data false)

/-- The per-file outcome flags computed by the first pass of
`check_file`'s verbose path (src lines 262-290). -/
structure Outcome where
  all_supported : Bool
  has_video : Bool
  has_audio : Bool
  can_transcode : Bool
  has_unsupported_bitmap_subtitle : Bool
deriving DecidableEq

/-- One iteration of the first-pass loop of `check_file` (src lines
267-290): non-media streams are skipped (`is_media_stream`), otherwise
the per-type classifier runs and the flags are updated. -/
def classify_step (o : Outcome) (par : AVCodecParameters) : Outcome :=
  match par.codec_type with
  | .video =>
    { o with
      all_supported := o.all_supported && is_video_codec_supported par,
      has_video := true,
      can_transcode := o.can_transcode || !is_video_codec_supported par }
  | .audio =>
    { o with
      all_supported := o.all_supported && is_audio_codec_supported par.codec_id,
      has_audio := true,
      can_transcode := o.can_transcode || !is_audio_codec_supported par.codec_id }
  | .subtitle =>
    { o with
      all_supported := o.all_supported && is_subtitle_codec_supported par.codec_id,
      can_transcode := o.can_transcode ||
        (!is_subtitle_codec_supported par.codec_id &&
         !is_bitmap_subtitle par.codec_id),
      has_unsupported_bitmap_subtitle := o.has_unsupported_bitmap_subtitle ||
        (!is_subtitle_codec_supported par.codec_id &&
         is_bitmap_subtitle par.codec_id) }
  | .other => o

/-- The whole first pass: fold `classify_step` over the stream list with
`all_supported` seeded from the container verdict (src line 262). -/
def analyze (container_ok : Bool) (streams : List AVCodecParameters) : Outcome :=
  streams.foldl classify_step
    { all_supported := container_ok
      has_video := false
      has_audio := false
      can_transcode := false
      has_unsupported_bitmap_subtitle := false }

/-- The local state of the transcode-command builder loop (src lines
377-415): the `-map` selectors appended to the command, the three
per-type option buffers `v_opts`/`a_opts`/`s_opts`, the three per-type
output counters, and the three first-seen flags. -/
structure TState where
  maps : String
  v_opts : String
  a_opts : String
  s_opts : String
  v_cnt : Nat
  a_cnt : Nat
  s_cnt : Nat
  had_video : Bool
  had_audio : Bool
  had_sub : Bool
deriving DecidableEq

/-- The builder state before the loop (src lines 377-379). -/
def initTState : TState :=
  { maps := "", v_opts := "", a_opts := "", s_opts := ""
    v_cnt := 0, a_cnt := 0, s_cnt := 0
    had_video := false, had_audio := false, had_sub := false }

/-- One iteration of the transcode-command builder loop (src lines
381-415). -/
def transcode_step (st : TState) (par : AVCodecParameters) : TState :=
  match par.codec_type with
  | .video =>
    { st with
      maps := if st.had_video then st.maps else st.maps ++ " -map 0:v",
      had_video := true,
      v_opts := st.v_opts ++ " -c:v:" ++ toString st.v_cnt ++ " " ++
        (if is_video_codec_supported par then "copy" else "libx264"),
      v_cnt := st.v_cnt + 1 }
  | .audio =>
    { st with
      maps := if st.had_audio then st.maps else st.maps ++ " -map 0:a",
      had_audio := true,
      a_opts := st.a_opts ++ " -c:a:" ++ toString st.a_cnt ++ " " ++
        (if is_audio_codec_supported par.codec_id then "copy" else "aac"),
      a_cnt := st.a_cnt + 1 }
  | .subtitle =>
    { st with
      maps := if st.had_sub then st.maps else st.maps ++ " -map 0:s",
      had_sub := true,
      s_opts := st.s_opts ++
        (if !is_subtitle_codec_supported par.codec_id then
          (if is_text_subtitle par.codec_id then
            " -c:s:" ++ toString st.s_cnt ++ " srt"
          else
            " -c:s:" ++ toString st.s_cnt ++ " copy")
        else
          " -c:s:" ++ toString st.s_cnt ++ " copy"),
      s_cnt := st.s_cnt + 1 }
  | .other => st

/-- The suggested transcode command (src lines 362-423): input prefix,
then the `-map` selectors, then the three option buffers in
video/audio/subtitle order, then the escaped output name. -/
def transcode_cmd (filepath : String) (streams : List AVCodecParameters) : String :=
  let st := streams.foldl transcode_step initTState
  "ffmpeg -i " ++ shell_escape_single filepath ++
    st.maps ++ st.v_opts ++ st.a_opts ++ st.s_opts ++
    " " ++ shell_escape_single (fixed_basename filepath)

/-- The suggested remux command (src lines 346-353). -/
def remux_cmd (filepath : String) : String :=
  "ffmpeg -i " ++ shell_escape_single filepath ++ " -map 0 -c copy " ++
    shell_escape_single ("remuxed_" ++ get_basename filepath ++ ".mkv")

/-- What the verbose path of `check_file` does after a successful probe:
whether a per-file report is rendered, which remediation commands it
offers, and the deltas it applies to the summary counters. -/
structure CheckResult where
  outcome : Outcome
  reported : Bool
  suggested_remux : Option String
  suggested_transcode : Option String
  d_ok : Nat
  d_not_supported : Nat
  d_total : Nat
deriving DecidableEq

/-- The verbose path of `check_file` (src lines 262-434) for a
successfully probed file: the first pass computes the outcome flags,
the two skip options may suppress the report (src lines 291-302),
otherwise the report is rendered and the remux command (src lines
344-358) and transcode command (src lines 360-427) are offered under
their respective conditions; finally the counters are updated (src
lines 431-433). -/
def check_file_verbose (filepath : String) (skip_ok skip_unfixable : Bool)
    (container : Option String) (streams : List AVCodecParameters) : CheckResult :=
  let o := analyze (is_container_supported container) streams
  if skip_ok && o.all_supported then
    { outcome := o, reported := false, suggested_remux := none
      suggested_transcode := none, d_ok := 1, d_not_supported := 0, d_total := 1 }
  else if skip_unfixable && !o.all_supported && !o.can_transcode &&
      o.has_unsupported_bitmap_subtitle then
    { outcome := o, reported := false, suggested_remux := none
      suggested_transcode := none, d_ok := 0, d_not_supported := 1, d_total := 1 }
  else
    { outcome := o
      reported := true
      suggested_remux :=
        if !o.all_supported && (o.has_video || o.has_audio) then
          some (remux_cmd filepath)
        else none
      suggested_transcode :=
        if !o.all_supported && (o.has_video || o.has_audio) && o.can_transcode then
          some (transcode_cmd filepath streams)
        else none
      d_ok := if o.all_supported then 1 else 0
      d_not_supported := if o.all_supported then 0 else 1
      d_total := 1 }

/-! ### Specification-side definitions

The definitions below are worded from the specification's claims; the
theorems compare them with the embedded code above. -/

/-- Spec wording: per-stream classification, dispatching on the media
type exactly as the spec's decision table reads (non-media streams are
out of scope and count as supported). -/
def stream_supported (par : AVCodecParameters) : Bool :=
  match par.codec_type with
  | .video => is_video_codec_supported par
  | .audio => is_audio_codec_supported par.codec_id
  | .subtitle => is_subtitle_codec_supported par.codec_id
  | .other => true

/-- Spec wording: a stream is unsupported for a reason other than being
a bitmap subtitle (an unsupported video or audio stream, or an
unsupported non-bitmap subtitle). -/
def transcode_target (par : AVCodecParameters) : Bool :=
  match par.codec_type with
  | .video => !is_video_codec_supported par
  | .audio => !is_audio_codec_supported par.codec_id
  | .subtitle => !is_subtitle_codec_supported par.codec_id &&
      !is_bitmap_subtitle par.codec_id
  | .other => false

/-- Spec wording: the `-map 0:<type-letter>` selector of a media type. -/
def selector : AVMediaType → String
  | .video => " -map 0:v"
  | .audio => " -map 0:a"
  | .subtitle => " -map 0:s"
  | .other => ""

/-- Spec wording: one selector per listed type, in list order. -/
def selectors : List AVMediaType → String
  | [] => ""
  | t :: ts => selector t ++ selectors ts

/-- Spec wording: the media types of the stream list in first-seen
order, each listed once; the three booleans say which types have
already been seen. -/
def firstSeenFrom (hv ha hs : Bool) : List AVCodecParameters → List AVMediaType
  | [] => []
  | par :: rest =>
    match par.codec_type with
    | .video =>
      if hv then firstSeenFrom hv ha hs rest
      else .video :: firstSeenFrom true ha hs rest
    | .audio =>
      if ha then firstSeenFrom hv ha hs rest
      else .audio :: firstSeenFrom hv true hs rest
    | .subtitle =>
      if hs then firstSeenFrom hv ha hs rest
      else .subtitle :: firstSeenFrom hv ha true rest
    | .other => firstSeenFrom hv ha hs rest

/-- Spec wording: the video codec-selection flags, one per video stream
in order, with a counter starting at `n`: `copy` if supported else the
default re-encode codec H.264. -/
def codecOptsV (n : Nat) : List AVCodecParameters → String
  | [] => ""
  | par :: rest =>
    " -c:v:" ++ toString n ++ " " ++
      (if is_video_codec_supported par then "copy" else "libx264") ++
      codecOptsV (n + 1) rest

/-- Spec wording: the audio codec-selection flags, one per audio stream
in order, with a counter starting at `n`: `copy` if supported else the
default re-encode codec AAC. -/
def codecOptsA (n : Nat) : List AVCodecParameters → String
  | [] => ""
  | par :: rest =>
    " -c:a:" ++ toString n ++ " " ++
      (if is_audio_codec_supported par.codec_id then "copy" else "aac") ++
      codecOptsA (n + 1) rest

/-- Spec wording: the subtitle codec-selection flags, one per subtitle
stream in order, with a counter starting at `n`: `copy` if supported,
`srt` if unsupported but text, `copy` if unsupported and bitmap. -/
def codecOptsS (n : Nat) : List AVCodecParameters → String
  | [] => ""
  | par :: rest =>
    (if !is_subtitle_codec_supported par.codec_id then
      (if is_text_subtitle par.codec_id then
        " -c:s:" ++ toString n ++ " srt"
      else
        " -c:s:" ++ toString n ++ " copy")
    else
      " -c:s:" ++ toString n ++ " copy") ++
      codecOptsS (n + 1) rest

/-- Spec wording for the implicit claim: every subtitle stream's
codec-selection flag is `-c:s:N copy`. -/
def copyOnlyOptsS (n : Nat) : List AVCodecParameters → String
  | [] => ""
  | _ :: rest => " -c:s:" ++ toString n ++ " copy" ++ copyOnlyOptsS (n + 1) rest

/-- Spec wording: the transcode command assembled from the declarative
pieces above. -/
def transcode_cmd_spec (filepath : String) (streams : List AVCodecParameters) : String :=
  "ffmpeg -i " ++ shell_escape_single filepath ++
    selectors (firstSeenFrom false false false streams) ++
    codecOptsV 0 (streams.filter fun par => par.codec_type == .video) ++
    codecOptsA 0 (streams.filter fun par => par.codec_type == .audio) ++
    codecOptsS 0 (streams.filter fun par => par.codec_type == .subtitle) ++
    " " ++ shell_escape_single (fixed_basename filepath)

/-- Spec wording: the container allow-list. -/
def containerPatterns : List String :=
  ["matroska", "mp4", "mov", "mpegts", "webm", "avi", "asf",
   "wav", "flac", "mp3", "ogg", "wmv"]

/-- Spec wording: the fixed exclusion set of legacy FourCC codec tags for
MPEG4, case-sensitive. -/
def mpeg4ExcludedTags : List Nat :=
  [MKTAG 'X' 'V' 'I' 'D', MKTAG 'x' 'v' 'i' 'd',
   MKTAG 'D' 'I' 'V' 'X', MKTAG 'd' 'i' 'v' 'x',
   MKTAG 'D' 'X' '5' '0',
   MKTAG 'M' 'P' '4' 'V', MKTAG 'm' 'p' '4' 'v',
   MKTAG 'F' 'M' 'P' '4', MKTAG 'f' 'm' 'p' '4']

/-- Spec wording: the excluded MPEG4 profiles. -/
def mpeg4ExcludedProfiles : List Int :=
  [FF_PROFILE_MPEG4_ADVANCED_SIMPLE, FF_PROFILE_MPEG4_SIMPLE_STUDIO]

/-- Spec wording: the video codec identifiers that are supported
regardless of tag and profile. -/
def alwaysSupportedVideoIds : List AVCodecID :=
  [.h264, .hevc, .mpeg2video, .vp9, .av1, .mjpeg, .png]

/-- Spec wording: a subtitle stream that is unsupported and bitmap-based. -/
def unsupported_bitmap (par : AVCodecParameters) : Bool :=
  match par.codec_type with
  | .subtitle => !is_subtitle_codec_supported par.codec_id &&
      is_bitmap_subtitle par.codec_id
  | _ => false

/-! ### Helper lemmas -/

/-- String concatenation is associative. -/
theorem str_append_assoc (a b c : String) : a ++ b ++ c = a ++ (b ++ c) := by
  cases a with | mk x => cases b with | mk y => cases c with | mk z =>
  exact congrArg String.mk (List.append_assoc x y z)

/-- The empty string is a right identity for concatenation. -/
theorem str_append_empty (s : String) : s ++ "" = s := by
  cases s with | mk x =>
  exact congrArg String.mk (List.append_nil x)

/-- The empty string is a left identity for concatenation. -/
theorem str_empty_append (s : String) : "" ++ s = s := by
  cases s with | mk x => rfl

/-- `matchesAt` decides the is-prefix relation. -/
theorem matchesAt_iff (p h : List Char) : matchesAt p h = true ↔ p <+: h := by
  induction p generalizing h with
  | nil => simp [matchesAt]
  | cons x xs ih =>
    cases h with
    | nil => simp [matchesAt]
    | cons y ys => simp [matchesAt, ih, List.cons_prefix_cons]

/-- `containsSub` decides the is-substring (infix) relation. -/
theorem containsSub_iff (p h : List Char) : containsSub p h = true ↔ p <:+: h := by
  induction h with
  | nil =>
    cases p with
    | nil => simp [containsSub, matchesAt]
    | cons x xs => simp [containsSub, matchesAt]
  | cons y ys ih =>
    simp only [containsSub, Bool.or_eq_true, ih, matchesAt_iff]
    constructor
    · rintro (hpre | hinf)
      · exact hpre.isInfix
      · obtain ⟨s, t, hst⟩ := hinf
        exact ⟨y :: s, t, by simp only [List.cons_append]; rw [hst]⟩
    · rintro ⟨s, t, hst⟩
      cases s with
      | nil => exact Or.inl ⟨t, by simpa using hst⟩
      | cons z zs =>
        simp only [List.cons_append] at hst
        injection hst with h1 h2
        exact Or.inr ⟨zs, t, h2⟩

/-- `==` on media types is propositional equality (the instance comes
from the derived decidable equality). -/
theorem media_beq (a b : AVMediaType) : (a == b) = decide (a = b) := rfl

/-- `==` on codec identifiers is propositional equality (the instance
comes from the derived decidable equality). -/
theorem codec_beq (a b : AVCodecID) : (a == b) = decide (a = b) := rfl

/-- The first-pass fold computes `all_supported` as the conjunction of
the seed with every stream's classification. -/
theorem foldl_classify_all (l : List AVCodecParameters) (o : Outcome) :
    (l.foldl classify_step o).all_supported =
      (o.all_supported && l.all stream_supported) := by
  induction l generalizing o with
  | nil => simp
  | cons par t ih =>
    cases h : par.codec_type <;>
      simp [classify_step, h, ih, stream_supported, Bool.and_assoc]

/-- The first-pass fold sets `has_video` iff a video stream occurs. -/
theorem foldl_classify_hv (l : List AVCodecParameters) (o : Outcome) :
    (l.foldl classify_step o).has_video =
      (o.has_video || l.any fun par => par.codec_type == .video) := by
  induction l generalizing o with
  | nil => simp
  | cons par t ih =>
    cases h : par.codec_type <;>
      simp [classify_step, h, ih, Bool.or_assoc, media_beq]

/-- The first-pass fold sets `has_audio` iff an audio stream occurs. -/
theorem foldl_classify_ha (l : List AVCodecParameters) (o : Outcome) :
    (l.foldl classify_step o).has_audio =
      (o.has_audio || l.any fun par => par.codec_type == .audio) := by
  induction l generalizing o with
  | nil => simp
  | cons par t ih =>
    cases h : par.codec_type <;>
      simp [classify_step, h, ih, Bool.or_assoc, media_beq]

/-- The first-pass fold sets `can_transcode` iff a transcode-target
stream occurs. -/
theorem foldl_classify_ct (l : List AVCodecParameters) (o : Outcome) :
    (l.foldl classify_step o).can_transcode =
      (o.can_transcode || l.any transcode_target) := by
  induction l generalizing o with
  | nil => simp
  | cons par t ih =>
    cases h : par.codec_type <;>
      simp [classify_step, h, ih, transcode_target, Bool.or_assoc]

/-- The first-pass fold sets `has_unsupported_bitmap_subtitle` iff an
unsupported bitmap subtitle stream occurs. -/
theorem foldl_classify_hbs (l : List AVCodecParameters) (o : Outcome) :
    (l.foldl classify_step o).has_unsupported_bitmap_subtitle =
      (o.has_unsupported_bitmap_subtitle || l.any unsupported_bitmap) := by
  induction l generalizing o with
  | nil => simp
  | cons par t ih =>
    cases h : par.codec_type <;>
      simp [classify_step, h, ih, unsupported_bitmap, Bool.or_assoc]

/-- The builder fold appends one `-map` selector per media type, in
first-seen order, to whatever the `maps` buffer already holds. -/
theorem foldl_tstate_maps (l : List AVCodecParameters) (st : TState) :
    (l.foldl transcode_step st).maps =
      st.maps ++ selectors (firstSeenFrom st.had_video st.had_audio st.had_sub l) := by
  induction l generalizing st with
  | nil => simp [firstSeenFrom, selectors, str_append_empty]
  | cons par t ih =>
    cases h : par.codec_type
    case video =>
      cases hv : st.had_video <;>
        simp [transcode_step, h, hv, ih, firstSeenFrom, selectors, selector,
          str_append_assoc]
    case audio =>
      cases ha : st.had_audio <;>
        simp [transcode_step, h, ha, ih, firstSeenFrom, selectors, selector,
          str_append_assoc]
    case subtitle =>
      cases hs : st.had_sub <;>
        simp [transcode_step, h, hs, ih, firstSeenFrom, selectors, selector,
          str_append_assoc]
    case other =>
      simp [transcode_step, h, ih, firstSeenFrom]

/-- The builder fold appends the video codec-selection flags, numbered
from the current video counter, to the `v_opts` buffer. -/
theorem foldl_tstate_vopts (l : List AVCodecParameters) (st : TState) :
    (l.foldl transcode_step st).v_opts =
      st.v_opts ++ codecOptsV st.v_cnt (l.filter fun par => par.codec_type == .video) := by
  induction l generalizing st with
  | nil => simp [codecOptsV, str_append_empty]
  | cons par t ih =>
    cases h : par.codec_type <;>
      simp [transcode_step, h, ih, codecOptsV, media_beq, str_append_assoc]

/-- The builder fold appends the audio codec-selection flags, numbered
from the current audio counter, to the `a_opts` buffer. -/
theorem foldl_tstate_aopts (l : List AVCodecParameters) (st : TState) :
    (l.foldl transcode_step st).a_opts =
      st.a_opts ++ codecOptsA st.a_cnt (l.filter fun par => par.codec_type == .audio) := by
  induction l generalizing st with
  | nil => simp [codecOptsA, str_append_empty]
  | cons par t ih =>
    cases h : par.codec_type <;>
      simp [transcode_step, h, ih, codecOptsA, media_beq, str_append_assoc]

/-- The builder fold appends the subtitle codec-selection flags,
numbered from the current subtitle counter, to the `s_opts` buffer. -/
theorem foldl_tstate_sopts (l : List AVCodecParameters) (st : TState) :
    (l.foldl transcode_step st).s_opts =
      st.s_opts ++ codecOptsS st.s_cnt (l.filter fun par => par.codec_type == .subtitle) := by
  induction l generalizing st with
  | nil => simp [codecOptsS, str_append_empty]
  | cons par t ih =>
    cases h : par.codec_type <;>
      simp [transcode_step, h, ih, codecOptsS, media_beq, str_append_assoc]

/-- The identical codec lists of `is_text_subtitle` and
`is_subtitle_codec_supported` make the two functions definitionally
equal. -/
theorem text_eq_sub_supported (id : AVCodecID) :
    is_text_subtitle id = is_subtitle_codec_supported id := rfl

/-- With the text set equal to the supported set, the subtitle
codec-selection flags are all `copy`. -/
theorem codecOptsS_eq_copyOnly (l : List AVCodecParameters) (n : Nat) :
    codecOptsS n l = copyOnlyOptsS n l := by
  induction l generalizing n with
  | nil => rfl
  | cons par rest ih =>
    cases hsup : is_subtitle_codec_supported par.codec_id <;>
      simp [codecOptsS, copyOnlyOptsS, hsup, text_eq_sub_supported, ih,
        str_append_assoc]

/-- A transcode-target stream is classified unsupported. -/
theorem target_imp_unsupported (par : AVCodecParameters)
    (h : transcode_target par = true) : stream_supported par = false := by
  cases hty : par.codec_type <;>
    simp [transcode_target, hty] at h <;>
    simp [stream_supported, hty, h]

/-- If the first pass reports a transcode target, the file cannot be
fully supported. -/
theorem can_transcode_imp_not_all (cok : Bool) (l : List AVCodecParameters)
    (hct : (analyze cok l).can_transcode = true) :
    (analyze cok l).all_supported = false := by
  rw [analyze, foldl_classify_ct] at hct
  rw [analyze, foldl_classify_all]
  simp only [Bool.false_or] at hct
  obtain ⟨par, hmem, htgt⟩ := List.any_eq_true.mp hct
  have hall : l.all stream_supported = false := by
    by_contra hno
    rw [Bool.not_eq_false] at hno
    have := List.all_eq_true.mp hno par hmem
    rw [target_imp_unsupported par htgt] at this
    cases this
  simp [hall]

/-- A single quote toggles the interpreter's quoting state. -/
theorem shInterp_quote (x : List Char) (q : Bool) :
    shInterp ('\'' :: x) q = shInterp x (!q) := by
  conv_lhs => rw [shInterp.eq_def]
  simp

/-- Outside quotes, a backslash makes the next character literal. -/
theorem shInterp_backslash (d : Char) (x : List Char) :
    shInterp ('\\' :: d :: x) false =
      Option.map (fun l => d :: l) (shInterp x false) := by
  conv_lhs => rw [shInterp.eq_def]
  simp

/-- Inside single quotes, any character other than a quote is literal. -/
theorem shInterp_plain (c : Char) (x : List Char) (hc : ¬c = '\'') :
    shInterp (c :: x) true = Option.map (fun l => c :: l) (shInterp x true) := by
  conv_lhs => rw [shInterp.eq_def]
  simp [hc]

/-- Interpreting the escaped body, starting inside single quotes and
ending with the closing quote, recovers the original characters. -/
theorem shInterp_escape_body (l : List Char) :
    shInterp (escape_body l ++ ['\'']) true = some l := by
  induction l with
  | nil => simp [escape_body, shInterp]
  | cons c rest ih =>
    by_cases hc : c = '\''
    · subst hc
      simp [escape_body, shInterp_quote, shInterp_backslash, ih]
    · simp [escape_body, hc, shInterp_plain, ih]

/-- A bitmap subtitle codec is never in the supported subtitle list. -/
theorem bitmap_imp_unsupported (id : AVCodecID)
    (h : is_bitmap_subtitle id = true) :
    is_subtitle_codec_supported id = false := by
  cases id <;> first | rfl | exact absurd h (by decide)

/-- A supported stream is not a transcode target. -/
theorem supported_not_target (par : AVCodecParameters)
    (h : stream_supported par = true) : transcode_target par = false := by
  cases hty : par.codec_type <;>
    simp [stream_supported, hty] at h <;>
    simp [transcode_target, hty, h]

/-- An unsupported bitmap subtitle stream is not a transcode target. -/
theorem bitmap_not_target (par : AVCodecParameters)
    (hty : par.codec_type = .subtitle)
    (hb : is_bitmap_subtitle par.codec_id = true) :
    transcode_target par = false := by
  simp [transcode_target, hty, hb]

/-- Whatever the skip options are, the transcode command is offered
exactly under the third branch's condition: when a skip branch fires,
that condition is false anyway (`skip-ok` needs a fully supported file,
`skip-unfixable` needs a non-transcodable one). -/
theorem cfv_transcode (fp : String) (sk su : Bool) (cont : Option String)
    (streams : List AVCodecParameters) :
    (check_file_verbose fp sk su cont streams).suggested_transcode =
      (if !(analyze (is_container_supported cont) streams).all_supported &&
          ((analyze (is_container_supported cont) streams).has_video ||
           (analyze (is_container_supported cont) streams).has_audio) &&
          (analyze (is_container_supported cont) streams).can_transcode then
        some (transcode_cmd fp streams)
      else none) := by
  rw [check_file_verbose]
  by_cases h1 : (sk && (analyze (is_container_supported cont) streams).all_supported) = true
  · rw [if_pos h1]
    rw [Bool.and_eq_true] at h1
    simp [h1.2]
  · rw [if_neg h1]
    by_cases h2 : (su && !(analyze (is_container_supported cont) streams).all_supported &&
        !(analyze (is_container_supported cont) streams).can_transcode &&
        (analyze (is_container_supported cont) streams).has_unsupported_bitmap_subtitle) = true
    · rw [if_pos h2]
      simp only [Bool.and_eq_true, Bool.not_eq_true'] at h2
      simp [h2.1.2]
    · rw [if_neg h2]

/-- With both skip options off, the remux command is offered exactly
under its branch condition. -/
theorem cfv_remux_noskip (fp : String) (cont : Option String)
    (streams : List AVCodecParameters) :
    (check_file_verbose fp false false cont streams).suggested_remux =
      (if !(analyze (is_container_supported cont) streams).all_supported &&
          ((analyze (is_container_supported cont) streams).has_video ||
           (analyze (is_container_supported cont) streams).has_audio) then
        some (remux_cmd fp)
      else none) := by
  rw [check_file_verbose]
  simp

/-- The first pass reports full support exactly when the container is
supported and every media stream is classified supported. -/
theorem analyze_all_iff (cok : Bool) (l : List AVCodecParameters) :
    (analyze cok l).all_supported = true ↔
      (cok = true ∧ ∀ par ∈ l, is_media_stream par.codec_type = true →
        stream_supported par = true) := by
  rw [analyze, foldl_classify_all]
  simp only [Bool.and_eq_true, List.all_eq_true]
  constructor
  · rintro ⟨hc, hall⟩
    exact ⟨hc, fun par hm _ => hall par hm⟩
  · rintro ⟨hc, hall⟩
    refine ⟨hc, fun par hm => ?_⟩
    cases hty : par.codec_type
    case video => exact hall par hm (by simp [is_media_stream, hty, media_beq])
    case audio => exact hall par hm (by simp [is_media_stream, hty, media_beq])
    case subtitle => exact hall par hm (by simp [is_media_stream, hty, media_beq])
    case other => simp [stream_supported, hty]

/-- Contrapositive form of `analyze_all_iff`. -/
theorem analyze_all_false_iff (cok : Bool) (l : List AVCodecParameters) :
    (analyze cok l).all_supported = false ↔
      ¬(cok = true ∧ ∀ par ∈ l, is_media_stream par.codec_type = true →
        stream_supported par = true) := by
  constructor
  · intro h hP
    rw [(analyze_all_iff cok l).mpr hP] at h
    cases h
  · intro hP
    cases hx : (analyze cok l).all_supported
    · rfl
    · exact absurd ((analyze_all_iff cok l).mp hx) hP

/-- The first pass reports video or audio exactly when a video or audio
stream occurs. -/
theorem analyze_hav_iff (cok : Bool) (l : List AVCodecParameters) :
    ((analyze cok l).has_video = true ∨ (analyze cok l).has_audio = true) ↔
      ∃ par ∈ l, par.codec_type = .video ∨ par.codec_type = .audio := by
  rw [analyze, foldl_classify_hv, foldl_classify_ha]
  simp only [Bool.false_or, List.any_eq_true, media_beq, decide_eq_true_eq]
  constructor
  · rintro (⟨par, hmem, h⟩ | ⟨par, hmem, h⟩)
    · exact ⟨par, hmem, Or.inl h⟩
    · exact ⟨par, hmem, Or.inr h⟩
  · rintro ⟨par, hmem, h | h⟩
    · exact Or.inl ⟨par, hmem, h⟩
    · exact Or.inr ⟨par, hmem, h⟩

/-! ### Claim theorems -/

/-- C1: a video stream is classified supported exactly when its codec id
is one of H264, HEVC, MPEG2, VP9, AV1, MJPEG, PNG, or it is MPEG4 with a
codec tag outside the case-sensitive exclusion set of legacy FourCCs and
a profile outside advanced-simple and simple-studio; in particular every
MPEG4 stream whose tag is in the exclusion set is unsupported regardless
of its profile. -/
theorem video_classification (par : AVCodecParameters) :
    (is_video_codec_supported par = true ↔
      (par.codec_id ∈ alwaysSupportedVideoIds ∨
       (par.codec_id = .mpeg4 ∧ par.codec_tag ∉ mpeg4ExcludedTags ∧
        par.profile ∉ mpeg4ExcludedProfiles))) ∧
    (par.codec_id = .mpeg4 → par.codec_tag ∈ mpeg4ExcludedTags →
      is_video_codec_supported par = false) := by
  have hmain : is_video_codec_supported par = true ↔
      (par.codec_id ∈ alwaysSupportedVideoIds ∨
       (par.codec_id = .mpeg4 ∧ par.codec_tag ∉ mpeg4ExcludedTags ∧
        par.profile ∉ mpeg4ExcludedProfiles)) := by
    simp [is_video_codec_supported, alwaysSupportedVideoIds, mpeg4ExcludedTags,
      mpeg4ExcludedProfiles, codec_beq, bne_iff_ne]
    tauto
  refine ⟨hmain, fun hid htag => ?_⟩
  cases hv : is_video_codec_supported par
  · rfl
  · exfalso
    rcases hmain.mp hv with hin | ⟨_, hnot, _⟩
    · rw [hid] at hin
      simp [alwaysSupportedVideoIds] at hin
    · exact hnot htag

/-- C1 witness: an MPEG4 stream with codec tag XVID and profile 0 is
classified unsupported. -/
theorem video_classification_witness :
    is_video_codec_supported
      ⟨.video, .mpeg4, MKTAG 'X' 'V' 'I' 'D', 0⟩ = false :=
  (video_classification ⟨.video, .mpeg4, MKTAG 'X' 'V' 'I' 'D', 0⟩).2
    rfl (by decide)

/-- C5: shell escaping wraps the argument in single quotes and turns each
embedded quote into close-quote, escaped quote, reopen-quote, so that
interpreting the escaped token under the POSIX single-quoting rules
yields back exactly the original string. -/
theorem shell_escape_roundtrip (s : String) :
    shUnquote (shell_escape_single s) = some s := by
  cases s with | mk d =>
  simp [shUnquote, shell_escape_single, shInterp_quote, shInterp_escape_body]

/-- C8: the text-subtitle predicate and the subtitle-supported predicate
agree on every codec identifier. -/
theorem text_subtitle_matches_supported (id : AVCodecID) :
    is_text_subtitle id = is_subtitle_codec_supported id := rfl

/-- C9: container classification returns supported exactly when the
format name is present and contains one of the allow-list patterns as a
substring; the multi-alias name `mov,mp4,m4a,3gp` is supported and an
absent or empty format name is unsupported. -/
theorem container_classification :
    (∀ name : Option String, is_container_supported name = true ↔
      ∃ s, name = some s ∧ ∃ p ∈ containerPatterns, p.data <:+: s.data) ∧
    is_container_supported (some "mov,mp4,m4a,3gp") = true ∧
    is_container_supported (some "") = false ∧
    is_container_supported none = false := by
  refine ⟨?_, by decide, by decide, rfl⟩
  intro name
  cases name with
  | none => simp [is_container_supported]
  | some s =>
    simp [is_container_supported, containerPatterns, strstrB, containsSub_iff]
    tauto

/-- C10 (implicit): the subtitle option buffer built by the transcode
command loop gives every subtitle stream the flag `-c:s:N copy` and
never `srt`, because the text-subtitle set equals the supported set. -/
theorem transcode_subtitle_flags_always_copy (streams : List AVCodecParameters) :
    (streams.foldl transcode_step initTState).s_opts =
      copyOnlyOptsS 0 (streams.filter fun par => par.codec_type == .subtitle) := by
  rw [foldl_tstate_sopts]
  simp [initTState, codecOptsS_eq_copyOnly, str_empty_append]

/-- C2: `all_supported` holds iff the container is supported and every
video/audio/subtitle stream is classified supported; `can_transcode`
holds iff some stream is unsupported for a reason other than being a
bitmap subtitle (an unsupported video or audio stream, or an unsupported
non-bitmap subtitle). -/
theorem outcome_flags_invariant (cok : Bool) (l : List AVCodecParameters) :
    ((analyze cok l).all_supported = true ↔
      (cok = true ∧ ∀ par ∈ l, is_media_stream par.codec_type = true →
        stream_supported par = true)) ∧
    ((analyze cok l).can_transcode = true ↔
      ∃ par ∈ l,
        (par.codec_type = .video ∧ is_video_codec_supported par = false) ∨
        (par.codec_type = .audio ∧ is_audio_codec_supported par.codec_id = false) ∨
        (par.codec_type = .subtitle ∧
          is_subtitle_codec_supported par.codec_id = false ∧
          is_bitmap_subtitle par.codec_id = false)) := by
  constructor
  · rw [analyze, foldl_classify_all]
    simp only [Bool.and_eq_true, List.all_eq_true]
    constructor
    · rintro ⟨hc, hall⟩
      exact ⟨hc, fun par hm _ => hall par hm⟩
    · rintro ⟨hc, hall⟩
      refine ⟨hc, fun par hm => ?_⟩
      cases hty : par.codec_type
      case video => exact hall par hm (by simp [is_media_stream, hty, media_beq])
      case audio => exact hall par hm (by simp [is_media_stream, hty, media_beq])
      case subtitle => exact hall par hm (by simp [is_media_stream, hty, media_beq])
      case other => simp [stream_supported, hty]
  · rw [analyze, foldl_classify_ct]
    simp only [Bool.false_or]
    rw [List.any_eq_true]
    refine exists_congr fun par => and_congr_right fun _ => ?_
    cases hty : par.codec_type <;> simp [transcode_target, hty]

/-- C3: the transcode command consists of the escaped input, one
`-map 0:<letter>` selector per media type present in first-seen order,
then per-stream codec-selection flags in stream order with a counter
local to each media type starting at 0 (video: copy or libx264; audio:
copy or aac; subtitle: copy, srt, or copy), then the escaped output; on
a file with an MPEG4/XVID video stream and an AAC audio stream it
contains `-map 0:v -map 0:a -c:v:0 libx264 -c:a:0 copy`. -/
theorem transcode_command_structure :
    (∀ (fp : String) (streams : List AVCodecParameters),
      transcode_cmd fp streams = transcode_cmd_spec fp streams) ∧
    containsSub "-map 0:v -map 0:a -c:v:0 libx264 -c:a:0 copy".data
      (transcode_cmd "movie.avi"
        [⟨.video, .mpeg4, MKTAG 'X' 'V' 'I' 'D', 0⟩,
         ⟨.audio, .aac, 0, 0⟩]).data = true := by
  constructor
  · intro fp streams
    simp [transcode_cmd, transcode_cmd_spec, foldl_tstate_maps,
      foldl_tstate_vopts, foldl_tstate_aopts, foldl_tstate_sopts,
      initTState, str_empty_append, str_append_assoc]
  · decide

/-- C4 counterexample: a probed file containing only a DVB subtitle
stream (unsupported, not bitmap per the program) has `can_transcode`
true, yet no transcode command is synthesized, because the file has
neither video nor audio. -/
theorem transcode_offer_counterexample :
    (analyze (is_container_supported (some "matroska"))
      [⟨.subtitle, .dvb_subtitle, 0, 0⟩]).can_transcode = true ∧
    (check_file_verbose "subs.mkv" false false (some "matroska")
      [⟨.subtitle, .dvb_subtitle, 0, 0⟩]).suggested_transcode = none := by
  constructor
  · decide
  · decide

/-- C4 amended: a transcode command is synthesized exactly when
`can_transcode` is true and the file has at least one video or audio
stream, whatever the skip options are. -/
theorem transcode_offer_iff (fp : String) (sk su : Bool)
    (cont : Option String) (streams : List AVCodecParameters) :
    ((check_file_verbose fp sk su cont streams).suggested_transcode).isSome = true ↔
      ((analyze (is_container_supported cont) streams).can_transcode = true ∧
       ((analyze (is_container_supported cont) streams).has_video = true ∨
        (analyze (is_container_supported cont) streams).has_audio = true)) := by
  have hca := can_transcode_imp_not_all (is_container_supported cont) streams
  rw [cfv_transcode]
  cases hct : (analyze (is_container_supported cont) streams).can_transcode
  · simp [hct]
  · have hall := hca hct
    cases hhv : (analyze (is_container_supported cont) streams).has_video <;>
      cases hha : (analyze (is_container_supported cont) streams).has_audio <;>
        simp [hct, hall, hhv, hha]

/-- C6: with the skip options off, a remux command is offered exactly for
a probed file that is not fully supported and has at least one video or
audio stream, and it is exactly
`ffmpeg -i <escaped input> -map 0 -c copy <escaped remuxed_basename.mkv>`. -/
theorem remux_offer (fp : String) (cont : Option String)
    (streams : List AVCodecParameters) :
    (check_file_verbose fp false false cont streams).suggested_remux =
      if ¬(is_container_supported cont = true ∧
            ∀ par ∈ streams, is_media_stream par.codec_type = true →
              stream_supported par = true) ∧
         (∃ par ∈ streams, par.codec_type = .video ∨ par.codec_type = .audio)
      then some ("ffmpeg -i " ++ shell_escape_single fp ++ " -map 0 -c copy " ++
        shell_escape_single ("remuxed_" ++ get_basename fp ++ ".mkv"))
      else none := by
  have hcond : (!(analyze (is_container_supported cont) streams).all_supported &&
      ((analyze (is_container_supported cont) streams).has_video ||
       (analyze (is_container_supported cont) streams).has_audio)) = true ↔
      (¬(is_container_supported cont = true ∧
          ∀ par ∈ streams, is_media_stream par.codec_type = true →
            stream_supported par = true) ∧
       (∃ par ∈ streams, par.codec_type = .video ∨ par.codec_type = .audio)) := by
    rw [Bool.and_eq_true, Bool.not_eq_true', Bool.or_eq_true]
    exact and_congr (analyze_all_false_iff _ _) (analyze_hav_iff _ _)
  rw [cfv_remux_noskip]
  by_cases hP : (¬(is_container_supported cont = true ∧
      ∀ par ∈ streams, is_media_stream par.codec_type = true →
        stream_supported par = true) ∧
      (∃ par ∈ streams, par.codec_type = .video ∨ par.codec_type = .audio))
  · rw [if_pos (hcond.mpr hP), if_pos hP]
    rw [remux_cmd]
  · rw [if_neg hP]
    cases hb : (!(analyze (is_container_supported cont) streams).all_supported &&
        ((analyze (is_container_supported cont) streams).has_video ||
         (analyze (is_container_supported cont) streams).has_audio))
    · rw [if_neg (by simp [hb])]
    · exact absurd (hcond.mp hb) hP

/-- C7: a PGS or DVD subtitle stream is classified unsupported and
flagged bitmap, and alone it never makes `can_transcode` true; a probed
file whose only unsupported streams are such subtitles has
`all_supported` false, `can_transcode` false and
`has_unsupported_bitmap_subtitle` true, and under `--skip-unfixable`
produces no verbose report while counting as not supported. -/
theorem bitmap_subtitle_unfixable :
    (∀ id : AVCodecID, (id = .hdmv_pgs_subtitle ∨ id = .dvd_subtitle) →
      is_subtitle_codec_supported id = false ∧ is_bitmap_subtitle id = true ∧
      ∀ (cok : Bool) (tag : Nat) (prof : Int),
        (analyze cok [⟨.subtitle, id, tag, prof⟩]).can_transcode = false) ∧
    (∀ (fp : String) (cont : Option String) (streams : List AVCodecParameters),
      is_container_supported cont = true →
      (∀ par ∈ streams, is_media_stream par.codec_type = true →
        stream_supported par = true ∨
        (par.codec_type = .subtitle ∧ is_bitmap_subtitle par.codec_id = true)) →
      (∃ par ∈ streams, par.codec_type = .subtitle ∧
        is_bitmap_subtitle par.codec_id = true) →
      (analyze (is_container_supported cont) streams).all_supported = false ∧
      (analyze (is_container_supported cont) streams).can_transcode = false ∧
      (analyze (is_container_supported cont) streams).has_unsupported_bitmap_subtitle
        = true ∧
      (check_file_verbose fp false true cont streams).reported = false ∧
      (check_file_verbose fp false true cont streams).d_not_supported = 1 ∧
      (check_file_verbose fp false true cont streams).d_total = 1) := by
  constructor
  · intro id hid
    have hb : is_bitmap_subtitle id = true := by
      rcases hid with h | h <;> subst h <;> rfl
    have hsup := bitmap_imp_unsupported id hb
    refine ⟨hsup, hb, fun cok tag prof => ?_⟩
    simp [analyze, classify_step, hsup, hb]
  · intro fp cont streams hcont hstreams hex
    have hallf : (analyze (is_container_supported cont) streams).all_supported
        = false := by
      rw [analyze, foldl_classify_all]
      obtain ⟨par, hmem, hty, hb⟩ := hex
      have hsf : stream_supported par = false := by
        simp [stream_supported, hty, bitmap_imp_unsupported _ hb]
      have hallf2 : streams.all stream_supported = false := by
        cases hx : streams.all stream_supported
        · rfl
        · rw [List.all_eq_true.mp hx par hmem] at hsf
          cases hsf
      simp [hallf2]
    have hctf : (analyze (is_container_supported cont) streams).can_transcode
        = false := by
      rw [analyze, foldl_classify_ct]
      simp only [Bool.false_or]
      cases hno : streams.any transcode_target
      · rfl
      · exfalso
        obtain ⟨par, hmem, htgt⟩ := List.any_eq_true.mp hno
        have hmedia : is_media_stream par.codec_type = true := by
          cases hty : par.codec_type
          case video => simp [is_media_stream, hty, media_beq]
          case audio => simp [is_media_stream, hty, media_beq]
          case subtitle => simp [is_media_stream, hty, media_beq]
          case other => simp [transcode_target, hty] at htgt
        rcases hstreams par hmem hmedia with hsup | ⟨hty, hb⟩
        · rw [supported_not_target par hsup] at htgt
          cases htgt
        · rw [bitmap_not_target par hty hb] at htgt
          cases htgt
    have hbs : (analyze (is_container_supported cont) streams).has_unsupported_bitmap_subtitle = true := by
      rw [analyze, foldl_classify_hbs]
      simp only [Bool.false_or]
      obtain ⟨par, hmem, hty, hb⟩ := hex
      exact List.any_eq_true.mpr ⟨par, hmem, by
        simp [unsupported_bitmap, hty, hb, bitmap_imp_unsupported _ hb]⟩
    refine ⟨hallf, hctf, hbs, ?_, ?_, ?_⟩ <;>
      simp [check_file_verbose, hallf, hctf, hbs]

/-- C7 witness: a Matroska file with a supported H264 video stream, a
supported AAC audio stream and a PGS subtitle stream, checked with
`--skip-unfixable`. -/
theorem bitmap_subtitle_unfixable_witness :
    (analyze (is_container_supported (some "matroska"))
      [⟨.video, .h264, 0, 0⟩, ⟨.audio, .aac, 0, 0⟩,
       ⟨.subtitle, .hdmv_pgs_subtitle, 0, 0⟩]).all_supported = false ∧
    (analyze (is_container_supported (some "matroska"))
      [⟨.video, .h264, 0, 0⟩, ⟨.audio, .aac, 0, 0⟩,
       ⟨.subtitle, .hdmv_pgs_subtitle, 0, 0⟩]).can_transcode = false ∧
    (analyze (is_container_supported (some "matroska"))
      [⟨.video, .h264, 0, 0⟩, ⟨.audio, .aac, 0, 0⟩,
       ⟨.subtitle, .hdmv_pgs_subtitle, 0, 0⟩]).has_unsupported_bitmap_subtitle
      = true ∧
    (check_file_verbose "movie.mkv" false true (some "matroska")
      [⟨.video, .h264, 0, 0⟩, ⟨.audio, .aac, 0, 0⟩,
       ⟨.subtitle, .hdmv_pgs_subtitle, 0, 0⟩]).reported = false ∧
    (check_file_verbose "movie.mkv" false true (some "matroska")
      [⟨.video, .h264, 0, 0⟩, ⟨.audio, .aac, 0, 0⟩,
       ⟨.subtitle, .hdmv_pgs_subtitle, 0, 0⟩]).d_not_supported = 1 ∧
    (check_file_verbose "movie.mkv" false true (some "matroska")
      [⟨.video, .h264, 0, 0⟩, ⟨.audio, .aac, 0, 0⟩,
       ⟨.subtitle, .hdmv_pgs_subtitle, 0, 0⟩]).d_total = 1 :=
  bitmap_subtitle_unfixable.2 "movie.mkv" (some "matroska")
    [⟨.video, .h264, 0, 0⟩, ⟨.audio, .aac, 0, 0⟩,
     ⟨.subtitle, .hdmv_pgs_subtitle, 0, 0⟩]
    (by decide) (by decide) (by decide)
